import Mathlib

/-!
Shallow embedding of `src/futures_decorator.py` (class `FuturesAPIDecorator`)
from the CryptoTradeForge/GeneralUtils repository, together with theorems
settling the frozen claims about the instrumentation layer.

Modelling conventions:
* Python scalar values that flow through the decorator (symbols, sides,
  prices, ...) are modelled by the inductive type `Value`.
* Python dicts (the `details` mapping and `kwargs`) are association lists
  with Python-dict semantics: assignment replaces the value of the first
  (unique) occurrence of a key in place, otherwise appends; lookup returns
  the first binding.
* Positional `args` are a `List Value`, indexed exactly as the source does
  (the source treats index 1 as the symbol).
* Python exceptions are modelled by `Except String`, the `String` being the
  text `str(e)` of the exception.
* The two sinks (the `Logger` and the `TelegramBot`, external collaborators)
  are modelled as oracles (`Sinks`): for each message they either succeed or
  raise a given exception.  The `Trace` records, in order, every
  `write_log`, `write_error_log` and `send_message` call the decorator makes.
* For "never raises" claims, a second, checked embedding (`...E`) is given in
  which every Python subscript (`args[i]`, `kwargs[k]`) is fallible, exactly
  where the source could raise `IndexError`/`KeyError`; the theorems show the
  checked embedding always succeeds and agrees with the total one.
-/

namespace FuturesAPIDecorator

/-- A Python scalar value as it flows through the decorator. -/
inductive Value where
  | vstr : String → Value
  | vint : Int → Value
  | vnone : Value
deriving DecidableEq, Repr

/-- Python `f"{v}"` / `str(v)` rendering of a value. -/
def Value.toStr : Value → String
  | .vstr s => s
  | .vint n => toString n
  | .vnone => "None"

/-- Python truthiness of a value (used by `if order_type:`). -/
def Value.truthy : Value → Bool
  | .vstr s => s ≠ ""
  | .vint n => n ≠ 0
  | .vnone => false

/-- A Python dict with string keys (insertion-ordered association list,
keys unique in every dict the source builds). -/
abbrev Dict := List (String × Value)

/-- Python dict lookup `d[k]` / `d.get(k)`: first binding of `k`. -/
def dget : Dict → String → Option Value
  | [], _ => none
  | p :: t, k => if p.1 = k then some p.2 else dget t k

/-- Python dict assignment `d[k] = v`: replaces the (unique) binding of `k`
in place, otherwise appends a new binding at the end. -/
def dinsert : Dict → String → Value → Dict
  | [], k, v => [(k, v)]
  | p :: t, k, v => if p.1 = k then (k, v) :: t else p :: dinsert t k v

/-- Python `k in d`. -/
def hasKey (d : Dict) (k : String) : Bool := (dget d k).isSome

/-- Python `d.update(kvs)`: assigns each binding of `kvs` in order. -/
def dictUpdate (d : Dict) (kvs : Dict) : Dict :=
  kvs.foldl (fun acc p => dinsert acc p.1 p.2) d

/-- Checked Python subscript `args[i]`: raises `IndexError` out of range. -/
def pyIndex : List Value → Nat → Except String Value
  | [], _ => .error "IndexError"
  | v :: _, 0 => .ok v
  | _ :: t, n + 1 => pyIndex t n

/-- Checked Python subscript `kwargs[k]`: raises `KeyError` when absent. -/
def pyKey (kwargs : Dict) (k : String) : Except String Value :=
  match dget kwargs k with
  | some v => .ok v
  | none => .error "KeyError"

/-- The `TRADING_METHODS` table (src/futures_decorator.py lines 14-20):
operation names that are audited. -/
def TRADING_METHODS : List String :=
  ["set_stop_loss_take_profit", "place_market_order", "place_limit_order",
   "close_position", "cancel_order"]

/-- The `INFO_METHODS` table (src/futures_decorator.py lines 23-29):
operation names that are explicitly passed through. -/
def INFO_METHODS : List String :=
  ["get_positions", "get_open_orders", "fetch_usdt_balance", "get_price",
   "get_historical_data"]

/-! ### `_extract_details` (src/futures_decorator.py lines 146-213) -/

/-- One guarded positional extraction step
(`if len(args) > i: details[key] = args[i]`). -/
def posStep (args : List Value) (i : Nat) (key : String) (d : Dict) : Dict :=
  if args.length > i then dinsert d key (args.getD i .vnone) else d

/-- One guarded keyword extraction step
(`if k in kwargs: details[key] = kwargs[k]`). -/
def kwStep (kwargs : Dict) (k : String) (key : String) (d : Dict) : Dict :=
  if hasKey kwargs k then dinsert d key ((dget kwargs k).getD .vnone) else d

/-- Lines 160-164: `if len(args) > 1: details["symbol"] = args[1]
elif "symbol" in kwargs: details["symbol"] = kwargs["symbol"]`. -/
def symbolStep (args : List Value) (kwargs : Dict) : Dict :=
  if args.length > 1 then dinsert [] "symbol" (args.getD 1 .vnone)
  else kwStep kwargs "symbol" "symbol" []

/-- Keyword keys accepted by the `set_stop_loss_take_profit` update
(line 178).  Note the alias keys appear verbatim. -/
def sltpKwKeys : List String :=
  ["side", "quantity", "stop_loss_price", "take_profit_price"]

/-- Keyword keys accepted by the order-placing update (lines 198-199). -/
def orderKwKeys : List String :=
  ["position_type", "price", "leverage", "amount", "stop_loss_price",
   "take_profit_price"]

/-- Lines 168-175: positional extraction for `set_stop_loss_take_profit`. -/
def sltpSteps (args : List Value) (d : Dict) : Dict :=
  posStep args 5 "take_profit"
    (posStep args 4 "stop_loss"
      (posStep args 3 "quantity"
        (posStep args 2 "side" d)))

/-- Lines 181-195: positional extraction for `place_market_order` and
`place_limit_order` (indices depend on which of the two it is). -/
def orderSteps (mn : String) (args : List Value) (d : Dict) : Dict :=
  let d := posStep args 2 "position" d
  let d := if mn = "place_limit_order" then posStep args 3 "price" d else d
  let d := posStep args (if mn = "place_limit_order" then 4 else 3) "leverage" d
  let d := posStep args (if mn = "place_limit_order" then 5 else 4) "amount" d
  if mn = "place_market_order" then
    posStep args 6 "take_profit" (posStep args 5 "stop_loss" d)
  else d

/-- Embedding of `FuturesAPIDecorator._extract_details`
(src/futures_decorator.py lines 146-213). -/
def extract_details (method_name : String) (args : List Value) (kwargs : Dict) :
    Dict :=
  let d := symbolStep args kwargs
  if method_name = "set_stop_loss_take_profit" then
    dictUpdate (sltpSteps args d) (kwargs.filter (fun p => sltpKwKeys.contains p.1))
  else if method_name = "place_market_order" ∨ method_name = "place_limit_order" then
    dictUpdate (orderSteps method_name args d)
      (kwargs.filter (fun p => orderKwKeys.contains p.1))
  else if method_name = "close_position" then
    kwStep kwargs "position_type" "position" (posStep args 2 "position" d)
  else if method_name = "cancel_order" then
    kwStep kwargs "type" "type" (posStep args 2 "type" d)
  else d

/-! Checked variant of the extractor: every Python subscript is fallible. -/

/-- Checked variant of `posStep`. -/
def posStepE (args : List Value) (i : Nat) (key : String) (d : Dict) :
    Except String Dict :=
  if args.length > i then do pure (dinsert d key (← pyIndex args i)) else pure d

/-- Checked variant of `kwStep`. -/
def kwStepE (kwargs : Dict) (k : String) (key : String) (d : Dict) :
    Except String Dict :=
  if hasKey kwargs k then do pure (dinsert d key (← pyKey kwargs k)) else pure d

/-- Checked variant of `symbolStep`. -/
def symbolStepE (args : List Value) (kwargs : Dict) : Except String Dict :=
  if args.length > 1 then do pure (dinsert [] "symbol" (← pyIndex args 1))
  else kwStepE kwargs "symbol" "symbol" []

/-- Checked variant of `sltpSteps`. -/
def sltpStepsE (args : List Value) (d : Dict) : Except String Dict := do
  let d ← posStepE args 2 "side" d
  let d ← posStepE args 3 "quantity" d
  let d ← posStepE args 4 "stop_loss" d
  posStepE args 5 "take_profit" d

/-- Checked variant of `orderSteps`. -/
def orderStepsE (mn : String) (args : List Value) (d : Dict) :
    Except String Dict := do
  let d ← posStepE args 2 "position" d
  let d ← if mn = "place_limit_order" then posStepE args 3 "price" d else pure d
  let d ← posStepE args (if mn = "place_limit_order" then 4 else 3) "leverage" d
  let d ← posStepE args (if mn = "place_limit_order" then 5 else 4) "amount" d
  if mn = "place_market_order" then do
    let d ← posStepE args 5 "stop_loss" d
    posStepE args 6 "take_profit" d
  else pure d

/-- Checked variant of `extract_details`: succeeds iff no subscript raises. -/
def extract_detailsE (method_name : String) (args : List Value) (kwargs : Dict) :
    Except String Dict := do
  let d ← symbolStepE args kwargs
  if method_name = "set_stop_loss_take_profit" then do
    let d ← sltpStepsE args d
    pure (dictUpdate d (kwargs.filter (fun p => sltpKwKeys.contains p.1)))
  else if method_name = "place_market_order" ∨ method_name = "place_limit_order" then do
    let d ← orderStepsE method_name args d
    pure (dictUpdate d (kwargs.filter (fun p => orderKwKeys.contains p.1)))
  else if method_name = "close_position" then do
    let d ← posStepE args 2 "position" d
    kwStepE kwargs "position_type" "position" d
  else if method_name = "cancel_order" then do
    let d ← posStepE args 2 "type" d
    kwStepE kwargs "type" "type" d
  else pure d

/-! ### `_get_success_message` / `_get_error_message`
(src/futures_decorator.py lines 215-288) -/

/-- The field-fetch pattern `args[i] if len(args) > i else kwargs.get(k, dv)`
used throughout both message builders. -/
def argOrKw (args : List Value) (i : Nat) (kwargs : Dict) (k : String)
    (dv : Value) : Value :=
  if args.length > i then args.getD i .vnone else (dget kwargs k).getD dv

/-- Checked variant of `argOrKw` (`args[i]` is the only fallible access;
`kwargs.get` never raises). -/
def argOrKwE (args : List Value) (i : Nat) (kwargs : Dict) (k : String)
    (dv : Value) : Except String Value :=
  if args.length > i then pyIndex args i else pure ((dget kwargs k).getD dv)

/-- Embedding of `FuturesAPIDecorator._get_success_message`
(src/futures_decorator.py lines 215-251). -/
def get_success_message (method_name : String) (args : List Value)
    (kwargs : Dict) : String :=
  let symbol := (argOrKw args 1 kwargs "symbol" (.vstr "unknown")).toStr
  if method_name = "set_stop_loss_take_profit" then
    let side := (argOrKw args 2 kwargs "side" (.vstr "unknown")).toStr
    "Set SL/TP for " ++ symbol ++ " (" ++ side ++ ")"
  else if method_name = "place_market_order" then
    let pt := (argOrKw args 2 kwargs "position_type" (.vstr "unknown")).toStr
    "Placed market " ++ pt ++ " order for " ++ symbol
  else if method_name = "place_limit_order" then
    let pt := (argOrKw args 2 kwargs "position_type" (.vstr "unknown")).toStr
    let price := (argOrKw args 3 kwargs "price" (.vstr "unknown")).toStr
    "Placed limit " ++ pt ++ " order for " ++ symbol ++ " at " ++ price
  else if method_name = "close_position" then
    let pt := (argOrKw args 2 kwargs "position_type" (.vstr "unknown")).toStr
    "Closed " ++ pt ++ " position for " ++ symbol
  else if method_name = "cancel_order" then
    let ot := argOrKw args 2 kwargs "type" (.vstr "")
    let typeStr := if ot.truthy then " " ++ ot.toStr else ""
    "Cancelled" ++ typeStr ++ " orders for " ++ symbol
  else "Executed " ++ method_name ++ " for " ++ symbol

/-- Embedding of `FuturesAPIDecorator._get_error_message`
(src/futures_decorator.py lines 253-288). -/
def get_error_message (method_name : String) (args : List Value)
    (kwargs : Dict) : String :=
  let symbol := (argOrKw args 1 kwargs "symbol" (.vstr "unknown")).toStr
  if method_name = "set_stop_loss_take_profit" then
    let side := (argOrKw args 2 kwargs "side" (.vstr "unknown")).toStr
    "Failed to set SL/TP for " ++ symbol ++ " (" ++ side ++ ")"
  else if method_name = "place_market_order" then
    let pt := (argOrKw args 2 kwargs "position_type" (.vstr "unknown")).toStr
    "Failed to place market " ++ pt ++ " order for " ++ symbol
  else if method_name = "place_limit_order" then
    let pt := (argOrKw args 2 kwargs "position_type" (.vstr "unknown")).toStr
    "Failed to place limit " ++ pt ++ " order for " ++ symbol
  else if method_name = "close_position" then
    let pt := (argOrKw args 2 kwargs "position_type" (.vstr "unknown")).toStr
    "Failed to close " ++ pt ++ " position for " ++ symbol
  else if method_name = "cancel_order" then
    let ot := argOrKw args 2 kwargs "type" (.vstr "")
    let typeStr := if ot.truthy then " " ++ ot.toStr else ""
    "Failed to cancel" ++ typeStr ++ " orders for " ++ symbol
  else "Failed to execute " ++ method_name ++ " for " ++ symbol

/-- Checked variant of `get_success_message`. -/
def get_success_messageE (method_name : String) (args : List Value)
    (kwargs : Dict) : Except String String := do
  let symbol := (← argOrKwE args 1 kwargs "symbol" (.vstr "unknown")).toStr
  if method_name = "set_stop_loss_take_profit" then do
    let side := (← argOrKwE args 2 kwargs "side" (.vstr "unknown")).toStr
    pure ("Set SL/TP for " ++ symbol ++ " (" ++ side ++ ")")
  else if method_name = "place_market_order" then do
    let pt := (← argOrKwE args 2 kwargs "position_type" (.vstr "unknown")).toStr
    pure ("Placed market " ++ pt ++ " order for " ++ symbol)
  else if method_name = "place_limit_order" then do
    let pt := (← argOrKwE args 2 kwargs "position_type" (.vstr "unknown")).toStr
    let price := (← argOrKwE args 3 kwargs "price" (.vstr "unknown")).toStr
    pure ("Placed limit " ++ pt ++ " order for " ++ symbol ++ " at " ++ price)
  else if method_name = "close_position" then do
    let pt := (← argOrKwE args 2 kwargs "position_type" (.vstr "unknown")).toStr
    pure ("Closed " ++ pt ++ " position for " ++ symbol)
  else if method_name = "cancel_order" then do
    let ot ← argOrKwE args 2 kwargs "type" (.vstr "")
    let typeStr := if ot.truthy then " " ++ ot.toStr else ""
    pure ("Cancelled" ++ typeStr ++ " orders for " ++ symbol)
  else pure ("Executed " ++ method_name ++ " for " ++ symbol)

/-- Checked variant of `get_error_message`. -/
def get_error_messageE (method_name : String) (args : List Value)
    (kwargs : Dict) : Except String String := do
  let symbol := (← argOrKwE args 1 kwargs "symbol" (.vstr "unknown")).toStr
  if method_name = "set_stop_loss_take_profit" then do
    let side := (← argOrKwE args 2 kwargs "side" (.vstr "unknown")).toStr
    pure ("Failed to set SL/TP for " ++ symbol ++ " (" ++ side ++ ")")
  else if method_name = "place_market_order" then do
    let pt := (← argOrKwE args 2 kwargs "position_type" (.vstr "unknown")).toStr
    pure ("Failed to place market " ++ pt ++ " order for " ++ symbol)
  else if method_name = "place_limit_order" then do
    let pt := (← argOrKwE args 2 kwargs "position_type" (.vstr "unknown")).toStr
    pure ("Failed to place limit " ++ pt ++ " order for " ++ symbol)
  else if method_name = "close_position" then do
    let pt := (← argOrKwE args 2 kwargs "position_type" (.vstr "unknown")).toStr
    pure ("Failed to close " ++ pt ++ " position for " ++ symbol)
  else if method_name = "cancel_order" then do
    let ot ← argOrKwE args 2 kwargs "type" (.vstr "")
    let typeStr := if ot.truthy then " " ++ ot.toStr else ""
    pure ("Failed to cancel" ++ typeStr ++ " orders for " ++ symbol)
  else pure ("Failed to execute " ++ method_name ++ " for " ++ symbol)

/-! ### `_log_and_notify` and the trading-method wrapper
(src/futures_decorator.py lines 62-144) -/

/-- `json.dumps(details, ensure_ascii=False)` with default separators.
String escaping is not modelled (none of the claims exercise it). -/
def jsonValue : Value → String
  | .vstr s => "\"" ++ s ++ "\""
  | .vint n => toString n
  | .vnone => "null"

/-- Serialization of the details dict, `json.dumps` default format. -/
def jsonDumps (d : Dict) : String :=
  "\x7b" ++ String.intercalate ", "
    (d.map (fun p => "\"" ++ p.1 ++ "\": " ++ jsonValue p.2)) ++ "\x7d"

/-- The message built by `_log_and_notify` (lines 72-80): status prefix,
optional `Details:` line (dict truthiness = non-empty), optional `Error:`
line carrying `str(error)`. -/
def mkMessage (action : String) (success : Bool) (details : Dict)
    (error : Option String) : String :=
  let status := if success then "✅ SUCCESS" else "❌ ERROR"
  let m := status ++ ": " ++ action
  let m := if details.isEmpty then m else m ++ "\nDetails: " ++ jsonDumps details
  match error with
  | some e => m ++ "\nError: " ++ e
  | none => m

/-- Behaviour of the two sinks, per message: `none` means the call returns
normally, `some e` means it raises an exception whose `str` is `e`. -/
structure Sinks where
  writeFail : String → Option String
  writeErrFail : String → Option String
  sendFail : String → Option String

/-- The observable report activity: every `write_log`, `write_error_log`
and `send_message` call issued by the decorator, in order. -/
structure Trace where
  logs : List String
  errLogs : List String
  sends : List String
deriving DecidableEq, Repr

/-- The `if self.tgbot: try: send ... except: write_error_log` tail of
`_log_and_notify` (lines 85-90). -/
def notify_step (s : Sinks) (hasBot : Bool) (message : String) (tr : Trace) :
    Except String Unit × Trace :=
  if hasBot then
    let tr1 := { tr with sends := tr.sends ++ [message] }
    match s.sendFail message with
    | none => (.ok (), tr1)
    | some e =>
      let em := "Failed to send Telegram notification: " ++ e
      let tr2 := { tr1 with errLogs := tr1.errLogs ++ [em] }
      match s.writeErrFail em with
      | none => (.ok (), tr2)
      | some e2 => (.error e2, tr2)
  else (.ok (), tr)

/-- Embedding of `FuturesAPIDecorator._log_and_notify`
(src/futures_decorator.py lines 62-90).  The severity choice follows the
source: an `error` argument selects `write_error_log`, otherwise
`write_log`.  A raising sink call aborts the procedure with that
exception (nothing inside `_log_and_notify` catches logger failures). -/
def log_and_notify (s : Sinks) (hasBot : Bool) (action : String)
    (success : Bool) (details : Dict) (error : Option String) (tr : Trace) :
    Except String Unit × Trace :=
  let message := mkMessage action success details error
  match error with
  | some _ =>
    let tr1 := { tr with errLogs := tr.errLogs ++ [message] }
    match s.writeErrFail message with
    | none => notify_step s hasBot message tr1
    | some e => (.error e, tr1)
  | none =>
    let tr1 := { tr with logs := tr.logs ++ [message] }
    match s.writeFail message with
    | none => notify_step s hasBot message tr1
    | some e => (.error e, tr1)

/-- An underlying API operation: original args and kwargs in, result or
exception out. -/
def MethodImpl := List Value → Dict → Except String Value

/-- What `_decorate_methods` binds for one name: either the trading
wrapper or the raw underlying method. -/
inductive Wrapped where
  | audited : String → MethodImpl → Wrapped
  | passthrough : MethodImpl → Wrapped

/-- Python `method_name.startswith('_')` (src/futures_decorator.py line
100): the name's first character is an underscore.  (`String.startsWith`
is not used because its Lean implementation is not kernel-reducible.) -/
def startswith_underscore (s : String) : Bool :=
  match s.data with
  | [] => false
  | c :: _ => c = '_'

/-- An attribute of the wrapped api object as seen by `dir`/`getattr`. -/
inductive Attr where
  | callable : MethodImpl → Attr
  | value : Value → Attr

/-- The per-name classification of `_decorate_methods`
(src/futures_decorator.py lines 108-116): trading methods get the wrapper,
info methods and any other name are passed through. -/
def decorate_one (name : String) (m : MethodImpl) : Wrapped :=
  if TRADING_METHODS.contains name then .audited name m
  else if INFO_METHODS.contains name then .passthrough m
  else .passthrough m

/-- Embedding of `FuturesAPIDecorator._decorate_methods`
(src/futures_decorator.py lines 92-116): names starting with `_` and
non-callable attributes are skipped; every other attribute is bound,
classified by `decorate_one`. -/
def decorate_methods (api : List (String × Attr)) : List (String × Wrapped) :=
  api.filterMap (fun p =>
    if startswith_underscore p.1 then none
    else match p.2 with
      | .callable m => some (p.1, decorate_one p.1 m)
      | .value _ => none)

/-- The wrapper's `except Exception as e:` clause
(src/futures_decorator.py lines 139-142), reached with the caught
exception `e`: the error report is dispatched and `e` re-raised; if the
dispatch itself raises, that exception replaces `e`. -/
def dispatch_error (s : Sinks) (hasBot : Bool) (name : String)
    (args : List Value) (kwargs : Dict) (details : Dict) (tr : Trace)
    (e : String) : Except String Value × Trace :=
  match log_and_notify s hasBot (get_error_message name args kwargs) false
      details (some e) tr with
  | (.ok _, tr1) => (.error e, tr1)
  | (.error e2, tr1) => (.error e2, tr1)

/-- The wrapper's success continuation (src/futures_decorator.py lines
135-138): the success report is dispatched and the result returned; if the
dispatch raises, that exception is caught by the same `try`'s `except`
clause, so control moves to `dispatch_error` with the dispatch's
exception, and the successful result is lost. -/
def dispatch_success (s : Sinks) (hasBot : Bool) (name : String)
    (args : List Value) (kwargs : Dict) (details : Dict) (tr : Trace)
    (result : Value) : Except String Value × Trace :=
  match log_and_notify s hasBot (get_success_message name args kwargs) true
      details none tr with
  | (.ok _, tr1) => (.ok result, tr1)
  | (.error e, tr1) => dispatch_error s hasBot name args kwargs details tr1 e

/-- The `try` block's branching on the underlying call's outcome
(src/futures_decorator.py lines 134-142). -/
def run_outcome (s : Sinks) (hasBot : Bool) (name : String)
    (args : List Value) (kwargs : Dict) (details : Dict) (tr : Trace) :
    Except String Value → Except String Value × Trace
  | .ok result => dispatch_success s hasBot name args kwargs details tr result
  | .error e => dispatch_error s hasBot name args kwargs details tr e

/-- Embedding of one invocation through the instrumented object.
For an audited name this is the `wrapper` closure built by
`_create_trading_decorator` (src/futures_decorator.py lines 129-142):
details are extracted before the `try`, the underlying method is invoked
with the original unmodified `args`/`kwargs`, and the outcome is
dispatched.  A passthrough name invokes the underlying method directly
with no report activity. -/
def run_wrapped (s : Sinks) (hasBot : Bool) (w : Wrapped) (args : List Value)
    (kwargs : Dict) (tr : Trace) : Except String Value × Trace :=
  match w with
  | .passthrough m => (m args kwargs, tr)
  | .audited name m =>
    run_outcome s hasBot name args kwargs (extract_details name args kwargs)
      tr (m args kwargs)

/-! ### Helper lemmas -/

theorem exc_bind_ok {α β : Type} (a : α) (f : α → Except String β) :
    (Except.ok a : Except String α) >>= f = f a := rfl

theorem exc_pure {α : Type} (a : α) : (pure a : Except String α) = .ok a := rfl

theorem pyIndex_of_lt (args : List Value) :
    ∀ i : Nat, i < args.length → pyIndex args i = .ok (args.getD i .vnone) := by
  induction args with
  | nil => intro i h; simp at h
  | cons a t ih =>
    intro i h
    cases i with
    | zero => rfl
    | succ n => exact ih n (Nat.lt_of_succ_lt_succ h)

theorem pyKey_of_hasKey (kwargs : Dict) (k : String)
    (h : hasKey kwargs k = true) :
    pyKey kwargs k = .ok ((dget kwargs k).getD .vnone) := by
  unfold hasKey at h
  unfold pyKey
  cases hf : dget kwargs k with
  | none => rw [hf] at h; simp at h
  | some v => simp

theorem posStepE_eq (args : List Value) (i : Nat) (key : String) (d : Dict) :
    posStepE args i key d = .ok (posStep args i key d) := by
  unfold posStepE posStep
  split
  · next h => rw [pyIndex_of_lt args i h]; rfl
  · rfl

theorem kwStepE_eq (kwargs : Dict) (k : String) (key : String) (d : Dict) :
    kwStepE kwargs k key d = .ok (kwStep kwargs k key d) := by
  unfold kwStepE kwStep
  split
  · next h => rw [pyKey_of_hasKey kwargs k h]; rfl
  · rfl

theorem symbolStepE_eq (args : List Value) (kwargs : Dict) :
    symbolStepE args kwargs = .ok (symbolStep args kwargs) := by
  unfold symbolStepE symbolStep
  split
  · next h => rw [pyIndex_of_lt args 1 h]; rfl
  · exact kwStepE_eq kwargs "symbol" "symbol" []

theorem sltpStepsE_eq (args : List Value) (d : Dict) :
    sltpStepsE args d = .ok (sltpSteps args d) := by
  unfold sltpStepsE sltpSteps
  simp only [posStepE_eq, exc_bind_ok]

theorem orderStepsE_eq (mn : String) (args : List Value) (d : Dict) :
    orderStepsE mn args d = .ok (orderSteps mn args d) := by
  unfold orderStepsE orderSteps
  split <;> simp only [posStepE_eq, exc_bind_ok, exc_pure] <;> split <;>
    simp only [posStepE_eq, exc_bind_ok, exc_pure]

theorem argOrKwE_eq (args : List Value) (i : Nat) (kwargs : Dict) (k : String)
    (dv : Value) : argOrKwE args i kwargs k dv = .ok (argOrKw args i kwargs k dv) := by
  unfold argOrKwE argOrKw
  split
  · next h => exact pyIndex_of_lt args i h
  · rfl

theorem dget_dinsert_self (d : Dict) (k : String) (v : Value) :
    dget (dinsert d k v) k = some v := by
  induction d with
  | nil => simp [dinsert, dget]
  | cons p t ih =>
    by_cases h : p.1 = k
    · simp [dinsert, dget, h]
    · simp [dinsert, dget, h, ih]

theorem dget_dinsert_ne (d : Dict) (k k' : String) (v : Value)
    (hne : k' ≠ k) : dget (dinsert d k' v) k = dget d k := by
  induction d with
  | nil => simp [dinsert, dget, hne]
  | cons p t ih =>
    by_cases h : p.1 = k'
    · simp [dinsert, dget, h, hne, Ne.symm hne]
    · by_cases h2 : p.1 = k <;> simp [dinsert, dget, h, h2, ih, Ne.symm hne]

theorem dget_posStep_ne (args : List Value) (i : Nat) (key k : String)
    (d : Dict) (hne : key ≠ k) : dget (posStep args i key d) k = dget d k := by
  unfold posStep
  split
  · exact dget_dinsert_ne d k key _ hne
  · rfl

theorem dget_posStep_self (args : List Value) (i : Nat) (key : String)
    (d : Dict) (h : i < args.length) :
    dget (posStep args i key d) key = some (args.getD i .vnone) := by
  unfold posStep
  rw [if_pos h]
  exact dget_dinsert_self d key _

theorem dget_dictUpdate_not_mem (kvs : Dict) (k : String) :
    ∀ d : Dict, (∀ p ∈ kvs, p.1 ≠ k) →
      dget (dictUpdate d kvs) k = dget d k := by
  induction kvs with
  | nil => intro d _; rfl
  | cons a t ih =>
    intro d h
    have step : dictUpdate d (a :: t) = dictUpdate (dinsert d a.1 a.2) t := rfl
    rw [step, ih _ (fun p hp => h p (List.mem_cons_of_mem a hp))]
    exact dget_dinsert_ne d k a.1 a.2 (h a (List.mem_cons_self a t))

theorem dget_dictUpdate_mem (kvs : Dict) (k : String) (v : Value) :
    ∀ d : Dict, kvs.Pairwise (fun p q => p.1 ≠ q.1) → (k, v) ∈ kvs →
      dget (dictUpdate d kvs) k = some v := by
  induction kvs with
  | nil => intro d _ hm; cases hm
  | cons a t ih =>
    intro d hp hm
    have step : dictUpdate d (a :: t) = dictUpdate (dinsert d a.1 a.2) t := rfl
    rcases List.mem_cons.mp hm with h | h
    · subst h
      rw [step, dget_dictUpdate_not_mem t k _
        (fun p hpt => Ne.symm ((List.pairwise_cons.mp hp).1 p hpt))]
      exact dget_dinsert_self d k v
    · exact step ▸ ih _ (List.pairwise_cons.mp hp).2 h

theorem extract_detailsE_eq (mn : String) (args : List Value) (kwargs : Dict) :
    extract_detailsE mn args kwargs = .ok (extract_details mn args kwargs) := by
  unfold extract_detailsE extract_details
  simp only [symbolStepE_eq, sltpStepsE_eq, orderStepsE_eq, posStepE_eq,
    kwStepE_eq, exc_bind_ok, exc_pure]
  split_ifs <;> rfl

theorem get_success_messageE_eq (mn : String) (args : List Value)
    (kwargs : Dict) :
    get_success_messageE mn args kwargs = .ok (get_success_message mn args kwargs) := by
  unfold get_success_messageE get_success_message
  simp only [argOrKwE_eq, exc_bind_ok, exc_pure]
  split_ifs <;> rfl

theorem get_error_messageE_eq (mn : String) (args : List Value)
    (kwargs : Dict) :
    get_error_messageE mn args kwargs = .ok (get_error_message mn args kwargs) := by
  unfold get_error_messageE get_error_message
  simp only [argOrKwE_eq, exc_bind_ok, exc_pure]
  split_ifs <;> rfl

theorem notify_step_ok (s : Sinks) (hasBot : Bool) (msg : String) (tr : Trace)
    (hs : hasBot = true → s.sendFail msg = none) :
    notify_step s hasBot msg tr =
      (.ok (), { tr with sends := tr.sends ++ (if hasBot then [msg] else []) }) := by
  unfold notify_step
  cases hasBot with
  | false => simp
  | true => simp [hs rfl]

theorem log_and_notify_ok_success (s : Sinks) (hasBot : Bool) (action : String)
    (details : Dict) (tr : Trace)
    (hw : s.writeFail (mkMessage action true details none) = none)
    (hs : hasBot = true → s.sendFail (mkMessage action true details none) = none) :
    log_and_notify s hasBot action true details none tr =
      (.ok (), { tr with
        logs := tr.logs ++ [mkMessage action true details none],
        sends := tr.sends ++
          (if hasBot then [mkMessage action true details none] else []) }) := by
  unfold log_and_notify
  simp only [hw]
  rw [notify_step_ok s hasBot _ _ hs]

theorem log_and_notify_ok_error (s : Sinks) (hasBot : Bool) (action : String)
    (details : Dict) (e : String) (tr : Trace)
    (hwe : s.writeErrFail (mkMessage action false details (some e)) = none)
    (hs : hasBot = true → s.sendFail (mkMessage action false details (some e)) = none) :
    log_and_notify s hasBot action false details (some e) tr =
      (.ok (), { tr with
        errLogs := tr.errLogs ++ [mkMessage action false details (some e)],
        sends := tr.sends ++
          (if hasBot then [mkMessage action false details (some e)] else []) }) := by
  unfold log_and_notify
  simp only [hwe]
  rw [notify_step_ok s hasBot _ _ hs]

theorem log_and_notify_sendfail (s : Sinks) (action : String) (details : Dict)
    (e : String) (tr : Trace)
    (hw : s.writeFail (mkMessage action true details none) = none)
    (hsf : s.sendFail (mkMessage action true details none) = some e)
    (hwe : s.writeErrFail ("Failed to send Telegram notification: " ++ e) = none) :
    log_and_notify s true action true details none tr =
      (.ok (), { tr with
        logs := tr.logs ++ [mkMessage action true details none],
        errLogs := tr.errLogs ++ ["Failed to send Telegram notification: " ++ e],
        sends := tr.sends ++ [mkMessage action true details none] }) := by
  unfold log_and_notify notify_step
  simp [hw, hsf, hwe]

theorem log_and_notify_fst_ok_success (s : Sinks) (hasBot : Bool)
    (action : String) (details : Dict) (tr : Trace)
    (hw : s.writeFail (mkMessage action true details none) = none)
    (hwe : ∀ msg, s.writeErrFail msg = none) :
    (log_and_notify s hasBot action true details none tr).1 = .ok () := by
  unfold log_and_notify notify_step
  simp only [hw]
  cases hasBot with
  | false => rfl
  | true =>
    simp only [if_pos rfl]
    cases s.sendFail (mkMessage action true details none) <;> simp [hwe]

/-! ### Claims -/

/-- C1 counterexample: calling `set_stop_loss_take_profit` with positional
argument `stop_loss = 100` at index 4 and keyword `stop_loss_price = 90`
does NOT yield `stop_loss = 90` in the extracted mapping: the kwargs
update (line 178) copies the alias key `stop_loss_price` verbatim instead
of normalizing it to `stop_loss`, so `stop_loss` keeps the positional 100. -/
theorem c1_counterexample :
    dget (extract_details "set_stop_loss_take_profit"
        [.vnone, .vstr "BTCUSDT", .vstr "long", .vint 1, .vint 100]
        [("stop_loss_price", .vint 90)]) "stop_loss" ≠ some (.vint 90) := by
  decide

/-- C1 (amended): for every call to `set_stop_loss_take_profit` whose
positional argument at index 4 supplies `stop_loss = 100` and whose keyword
arguments supply `stop_loss_price = 90`, the extracted mapping's
`stop_loss` field equals the positional 100, and the keyword value is
stored under the un-normalized alias key `stop_loss_price`, which equals
90.  (Alias keys are not normalized to the canonical vocabulary; keyword
override only happens for keys spelled canonically, e.g. `side`.) -/
theorem c1_amended (args : List Value) (kwargs : Dict)
    (hlen : 4 < args.length) (h4 : args.getD 4 .vnone = .vint 100)
    (hpw : kwargs.Pairwise (fun p q => p.1 ≠ q.1))
    (hmem : ("stop_loss_price", Value.vint 90) ∈ kwargs) :
    dget (extract_details "set_stop_loss_take_profit" args kwargs) "stop_loss"
      = some (.vint 100) ∧
    dget (extract_details "set_stop_loss_take_profit" args kwargs)
      "stop_loss_price" = some (.vint 90) := by
  have hname : extract_details "set_stop_loss_take_profit" args kwargs =
      dictUpdate (sltpSteps args (symbolStep args kwargs))
        (kwargs.filter (fun p => sltpKwKeys.contains p.1)) := by
    unfold extract_details
    rw [if_pos rfl]
  have hfilter : ∀ p ∈ kwargs.filter (fun p => sltpKwKeys.contains p.1),
      p.1 ≠ "stop_loss" := by
    intro p hp
    have h2 := (List.mem_filter.mp hp).2
    simp only [sltpKwKeys, List.contains_cons, List.contains_nil,
      Bool.or_eq_true, beq_iff_eq] at h2
    rcases h2 with h | h | h | h | h
    all_goals first
      | (rw [h]; decide)
      | simp at h
  rw [hname]
  constructor
  · rw [dget_dictUpdate_not_mem _ _ _ hfilter]
    unfold sltpSteps
    rw [dget_posStep_ne _ _ _ _ _ (by decide)]
    rw [dget_posStep_self _ _ _ _ hlen, h4]
  · exact dget_dictUpdate_mem _ _ _ _ (hpw.filter _)
      (List.mem_filter.mpr ⟨hmem, by decide⟩)

/-- C1 witness: the amended statement at the concrete call of the claim. -/
theorem c1_amended_witness :
    dget (extract_details "set_stop_loss_take_profit"
        [.vnone, .vstr "BTCUSDT", .vstr "long", .vint 1, .vint 100]
        [("stop_loss_price", .vint 90)]) "stop_loss" = some (.vint 100) ∧
    dget (extract_details "set_stop_loss_take_profit"
        [.vnone, .vstr "BTCUSDT", .vstr "long", .vint 1, .vint 100]
        [("stop_loss_price", .vint 90)]) "stop_loss_price" = some (.vint 90) :=
  c1_amended _ _ (by decide) (by decide) (by decide) (by decide)

/-- C2 counterexample: an Audited call whose underlying operation succeeds
but whose Log Sink `write_log` raises does NOT return the underlying
result: `_log_and_notify` is called inside the wrapper's `try`, so the
logger's exception is caught by the `except` clause, re-reported, and
re-raised to the caller in place of the successful result. -/
theorem c2_counterexample :
    (run_wrapped ⟨fun _ => some "disk full", fun _ => none, fun _ => none⟩
        false (.audited "place_market_order" (fun _ _ => .ok (.vstr "filled")))
        [] [] ⟨[], [], []⟩).1 = .error "disk full" ∧
    (run_wrapped ⟨fun _ => some "disk full", fun _ => none, fun _ => none⟩
        false (.audited "place_market_order" (fun _ _ => .ok (.vstr "filled")))
        [] [] ⟨[], [], []⟩).1 ≠ .ok (.vstr "filled") := by
  refine ⟨rfl, ?_⟩
  intro h
  exact Except.noConfusion h

/-- C2 (amended): among instrumentation-internal failures only
Notification-Sink failures are contained: whenever the Log Sink's write
operations do not throw, an Audited call whose underlying operation
returns successfully returns that original result no matter how the
Notification Sink behaves; a throwing Log Sink write, however, propagates
to the caller (see the counterexample). -/
theorem c2_amended (s : Sinks) (hasBot : Bool) (name : String)
    (m : MethodImpl) (args : List Value) (kwargs : Dict) (tr : Trace)
    (r : Value) (hm : m args kwargs = .ok r)
    (hw : ∀ msg, s.writeFail msg = none)
    (hwe : ∀ msg, s.writeErrFail msg = none) :
    (run_wrapped s hasBot (.audited name m) args kwargs tr).1 = .ok r := by
  simp only [run_wrapped]
  rw [hm]
  simp only [run_outcome]
  unfold dispatch_success
  cases hln : log_and_notify s hasBot (get_success_message name args kwargs)
      true (extract_details name args kwargs) none tr with
  | mk u tr1 =>
    have h := log_and_notify_fst_ok_success s hasBot
      (get_success_message name args kwargs)
      (extract_details name args kwargs) tr (hw _) hwe
    rw [hln] at h
    cases u with
    | ok v => rfl
    | error e => simp at h

/-- C2 witness: a successful call with a failing Notification Sink and a
non-throwing Log Sink still returns the original result. -/
theorem c2_amended_witness :
    (run_wrapped ⟨fun _ => none, fun _ => none, fun _ => some "net down"⟩
        true (.audited "close_position" (fun _ _ => .ok (.vint 7)))
        [] [] ⟨[], [], []⟩).1 = .ok (.vint 7) :=
  c2_amended _ true "close_position" _ [] [] _ _ rfl
    (fun _ => rfl) (fun _ => rfl)

/-- C3: for every Audited invocation whose underlying call raises `e`, with
the Log Sink non-throwing (as the spec assumes) and the configured
notification delivered, the Interceptor appends exactly one error-severity
Log Sink report, makes exactly one notification attempt iff a Notification
Sink is configured, leaves the normal log untouched, and re-raises the
original exception value `e` unchanged. -/
theorem c3_error_path (s : Sinks) (hasBot : Bool) (name : String)
    (m : MethodImpl) (args : List Value) (kwargs : Dict) (tr : Trace)
    (e : String) (hm : m args kwargs = .error e)
    (hwe : s.writeErrFail (mkMessage (get_error_message name args kwargs)
      false (extract_details name args kwargs) (some e)) = none)
    (hs : hasBot = true → s.sendFail (mkMessage (get_error_message name args kwargs)
      false (extract_details name args kwargs) (some e)) = none) :
    run_wrapped s hasBot (.audited name m) args kwargs tr =
      (.error e, { tr with
        errLogs := tr.errLogs ++ [mkMessage (get_error_message name args kwargs)
          false (extract_details name args kwargs) (some e)],
        sends := tr.sends ++
          (if hasBot then [mkMessage (get_error_message name args kwargs)
            false (extract_details name args kwargs) (some e)] else []) }) := by
  simp only [run_wrapped]
  rw [hm]
  simp only [run_outcome]
  unfold dispatch_error
  rw [log_and_notify_ok_error s hasBot _ _ e tr hwe hs]

/-- C3 witness: the error path at a concrete failing `cancel_order` call
(underlying raises "timeout"), with well-behaved sinks and a configured
Notification Sink. -/
theorem c3_witness :
    run_wrapped ⟨fun _ => none, fun _ => none, fun _ => none⟩ true
        (.audited "cancel_order" (fun _ _ => .error "timeout"))
        [.vnone, .vstr "ETHUSDT"] [] ⟨[], [], []⟩ =
      (.error "timeout",
        { logs := [],
          errLogs := [mkMessage
            (get_error_message "cancel_order" [.vnone, .vstr "ETHUSDT"] [])
            false (extract_details "cancel_order" [.vnone, .vstr "ETHUSDT"] [])
            (some "timeout")],
          sends := [mkMessage
            (get_error_message "cancel_order" [.vnone, .vstr "ETHUSDT"] [])
            false (extract_details "cancel_order" [.vnone, .vstr "ETHUSDT"] [])
            (some "timeout")] }) := by
  exact c3_error_path _ true "cancel_order" _ _ _ _ _ rfl rfl (fun _ => rfl)

/-- C4: if the Notification Sink's `send` raises during an
otherwise-successful Audited call, the exception is caught, the call still
returns its original successful result, and one additional error-severity
Log Sink entry `"Failed to send Telegram notification: ..."` describing
the notification failure is written. -/
theorem c4_notification_failure (s : Sinks) (name : String) (m : MethodImpl)
    (args : List Value) (kwargs : Dict) (tr : Trace) (r : Value) (e : String)
    (hm : m args kwargs = .ok r)
    (hw : s.writeFail (mkMessage (get_success_message name args kwargs) true
      (extract_details name args kwargs) none) = none)
    (hsf : s.sendFail (mkMessage (get_success_message name args kwargs) true
      (extract_details name args kwargs) none) = some e)
    (hwe : s.writeErrFail ("Failed to send Telegram notification: " ++ e) = none) :
    run_wrapped s true (.audited name m) args kwargs tr =
      (.ok r, { tr with
        logs := tr.logs ++ [mkMessage (get_success_message name args kwargs)
          true (extract_details name args kwargs) none],
        errLogs := tr.errLogs ++ ["Failed to send Telegram notification: " ++ e],
        sends := tr.sends ++ [mkMessage (get_success_message name args kwargs)
          true (extract_details name args kwargs) none] }) := by
  simp only [run_wrapped]
  rw [hm]
  simp only [run_outcome]
  unfold dispatch_success
  rw [log_and_notify_sendfail s _ _ e tr hw hsf hwe]

/-- C4 witness: a concrete successful `place_limit_order` whose
notification raises "net down". -/
theorem c4_witness :
    run_wrapped ⟨fun _ => none, fun _ => none, fun _ => some "net down"⟩ true
        (.audited "place_limit_order" (fun _ _ => .ok (.vstr "order-1")))
        [] [("symbol", .vstr "BTCUSDT")] ⟨[], [], []⟩ =
      (.ok (.vstr "order-1"),
        { logs := [mkMessage
            (get_success_message "place_limit_order" [] [("symbol", .vstr "BTCUSDT")])
            true (extract_details "place_limit_order" [] [("symbol", .vstr "BTCUSDT")])
            none],
          errLogs := ["Failed to send Telegram notification: net down"],
          sends := [mkMessage
            (get_success_message "place_limit_order" [] [("symbol", .vstr "BTCUSDT")])
            true (extract_details "place_limit_order" [] [("symbol", .vstr "BTCUSDT")])
            none] }) := by
  exact c4_notification_failure _ "place_limit_order" _ _ _ _ _ "net down"
    rfl rfl rfl rfl

/-- C5: for every operation name in the Audited (`TRADING_METHODS`) table,
wrap time binds the trading wrapper, and a successful invocation — with
the Log Sink non-throwing and the configured notification delivered —
invokes the underlying method on the original unmodified arguments (the
wrapper passes `args`/`kwargs` through verbatim by construction, see
`run_wrapped`), appends exactly one normal-severity Log Sink report,
makes exactly one notification attempt iff a Notification Sink is
configured (only after the underlying result is determined: the report
message is a function of the completed call), and returns the underlying
result unchanged. -/
theorem c5_audited_success (s : Sinks) (hasBot : Bool) (name : String)
    (m : MethodImpl) (args : List Value) (kwargs : Dict) (tr : Trace)
    (r : Value) (hname : name ∈ TRADING_METHODS)
    (hm : m args kwargs = .ok r)
    (hw : s.writeFail (mkMessage (get_success_message name args kwargs) true
      (extract_details name args kwargs) none) = none)
    (hs : hasBot = true → s.sendFail (mkMessage (get_success_message name args kwargs)
      true (extract_details name args kwargs) none) = none) :
    decorate_one name m = .audited name m ∧
    run_wrapped s hasBot (.audited name m) args kwargs tr =
      (.ok r, { tr with
        logs := tr.logs ++ [mkMessage (get_success_message name args kwargs)
          true (extract_details name args kwargs) none],
        sends := tr.sends ++
          (if hasBot then [mkMessage (get_success_message name args kwargs)
            true (extract_details name args kwargs) none] else []) }) := by
  constructor
  · unfold decorate_one
    rw [if_pos (by simpa using hname)]
  · simp only [run_wrapped]
    rw [hm]
    simp only [run_outcome]
    unfold dispatch_success
    rw [log_and_notify_ok_success s hasBot _ _ tr hw hs]

/-- C5 witness: a concrete successful audited `place_market_order` call
with well-behaved sinks and a configured Notification Sink. -/
theorem c5_witness :
    decorate_one "place_market_order" (fun _ _ => Except.ok (Value.vstr "filled")) =
      .audited "place_market_order" (fun _ _ => Except.ok (Value.vstr "filled")) ∧
    run_wrapped ⟨fun _ => none, fun _ => none, fun _ => none⟩ true
        (.audited "place_market_order" (fun _ _ => Except.ok (Value.vstr "filled")))
        [.vnone, .vstr "BTCUSDT"] [] ⟨[], [], []⟩ =
      (.ok (.vstr "filled"),
        { logs := [mkMessage
            (get_success_message "place_market_order" [.vnone, .vstr "BTCUSDT"] [])
            true (extract_details "place_market_order" [.vnone, .vstr "BTCUSDT"] [])
            none],
          errLogs := [],
          sends := [mkMessage
            (get_success_message "place_market_order" [.vnone, .vstr "BTCUSDT"] [])
            true (extract_details "place_market_order" [.vnone, .vstr "BTCUSDT"] [])
            none] }) := by
  exact c5_audited_success _ true "place_market_order" _ _ _ _ _
    (by decide) rfl rfl (fun _ => rfl)

/-- C6: for every operation name in the Passthrough (`INFO_METHODS`) table,
and for every name in neither table, the instrumented object binds the
underlying method itself, and invoking it is observably identical to
invoking the wrapped capability directly: same return value or raised
error (`m args kwargs` verbatim), and the report trace is untouched (no
Log Sink or Notification Sink activity). -/
theorem c6_passthrough (s : Sinks) (hasBot : Bool) (name : String)
    (m : MethodImpl) (args : List Value) (kwargs : Dict) (tr : Trace)
    (hname : name ∈ INFO_METHODS ∨
      (name ∉ TRADING_METHODS ∧ name ∉ INFO_METHODS)) :
    decorate_one name m = .passthrough m ∧
    run_wrapped s hasBot (decorate_one name m) args kwargs tr =
      (m args kwargs, tr) := by
  have hnt : name ∉ TRADING_METHODS := by
    rcases hname with h | h
    · simp [INFO_METHODS] at h
      rcases h with h | h | h | h | h <;> subst h <;> decide
    · exact h.1
  have hd : decorate_one name m = .passthrough m := by
    unfold decorate_one
    rw [if_neg (by simpa using hnt)]
    split <;> rfl
  exact ⟨hd, by rw [hd]; rfl⟩


/-- C6 witness: the passthrough behaviour at the concrete Passthrough name
`get_price`. -/
theorem c6_witness :
    decorate_one "get_price" (fun _ _ => Except.ok (Value.vint 42)) =
      .passthrough (fun _ _ => Except.ok (Value.vint 42)) ∧
    run_wrapped ⟨fun _ => none, fun _ => none, fun _ => none⟩ false
        (decorate_one "get_price" (fun _ _ => Except.ok (Value.vint 42)))
        [] [] ⟨[], [], []⟩ =
      (Except.ok (Value.vint 42), ⟨[], [], []⟩) := by
  exact c6_passthrough _ false "get_price" _ [] [] _ (Or.inl (by decide))

/-- C7: parameter extraction is total and deterministic: the checked
embedding, in which every Python subscript of the source can raise,
always succeeds and agrees with the (pure, hence deterministic and
side-effect-free) total embedding, for every operation name and every
shape of positional and keyword arguments; and with zero arguments the
extraction degrades to the empty mapping (missing positions/keys are
simply omitted). -/
theorem c7_extraction_total :
    (∀ (mn : String) (args : List Value) (kwargs : Dict),
      extract_detailsE mn args kwargs = .ok (extract_details mn args kwargs)) ∧
    (∀ mn : String, extract_details mn [] [] = []) := by
  refine ⟨extract_detailsE_eq, ?_⟩
  intro mn
  unfold extract_details
  split_ifs with h1 h2 h3 h4
  · rfl
  · rcases h2 with h | h <;> subst h <;> rfl
  · rfl
  · rfl
  · rfl

/-- C8: calling `place_limit_order` with keyword arguments
`symbol="BTCUSDT"`, `position_type="long"`, `price=65000` produces the
success report text "Placed limit long order for BTCUSDT at 65000". -/
theorem c8_limit_order_success_text :
    get_success_message "place_limit_order" []
      [("symbol", .vstr "BTCUSDT"), ("position_type", .vstr "long"),
       ("price", .vint 65000)] = "Placed limit long order for BTCUSDT at 65000" := by
  rfl

/-- C9: message formatting is pure and total: the checked embeddings of
both message builders always succeed and agree with the total ones (so
formatting never raises, for every operation name and argument shape);
for every operation name with no specific template the success message is
the generic "Executed {name} for {symbol}" and the failure message
"Failed to execute {name} for {symbol}"; and the symbol is the literal
string "unknown" when absent from the arguments. -/
theorem c9_formatting_generic_total :
    (∀ (mn : String) (args : List Value) (kwargs : Dict),
      get_success_messageE mn args kwargs = .ok (get_success_message mn args kwargs)) ∧
    (∀ (mn : String) (args : List Value) (kwargs : Dict),
      get_error_messageE mn args kwargs = .ok (get_error_message mn args kwargs)) ∧
    (∀ (mn : String) (args : List Value) (kwargs : Dict), mn ∉ TRADING_METHODS →
      get_success_message mn args kwargs =
        "Executed " ++ mn ++ " for " ++
          (argOrKw args 1 kwargs "symbol" (.vstr "unknown")).toStr ∧
      get_error_message mn args kwargs =
        "Failed to execute " ++ mn ++ " for " ++
          (argOrKw args 1 kwargs "symbol" (.vstr "unknown")).toStr) ∧
    (∀ mn : String, mn ∉ TRADING_METHODS →
      get_success_message mn [] [] = "Executed " ++ mn ++ " for unknown" ∧
      get_error_message mn [] [] = "Failed to execute " ++ mn ++ " for unknown") := by
  have hgen : ∀ (mn : String) (args : List Value) (kwargs : Dict),
      mn ∉ TRADING_METHODS →
      get_success_message mn args kwargs =
        "Executed " ++ mn ++ " for " ++
          (argOrKw args 1 kwargs "symbol" (.vstr "unknown")).toStr ∧
      get_error_message mn args kwargs =
        "Failed to execute " ++ mn ++ " for " ++
          (argOrKw args 1 kwargs "symbol" (.vstr "unknown")).toStr := by
    intro mn args kwargs h
    simp only [TRADING_METHODS, List.mem_cons, List.not_mem_nil, or_false,
      not_or] at h
    obtain ⟨h1, h2, h3, h4, h5⟩ := h
    unfold get_success_message get_error_message
    constructor <;> simp [h1, h2, h3, h4, h5]
  refine ⟨get_success_messageE_eq, get_error_messageE_eq, hgen, ?_⟩
  intro mn h
  have hg := hgen mn [] [] h
  refine ⟨?_, ?_⟩
  · rw [hg.1, String.append_assoc]
    rfl
  · rw [hg.2, String.append_assoc]
    rfl

/-- C9 witness: the generic fallback at a concrete unlisted name. -/
theorem c9_witness :
    get_success_message "transfer_funds" [] [] =
      "Executed transfer_funds for unknown" ∧
    get_error_message "transfer_funds" [] [] =
      "Failed to execute transfer_funds for unknown" :=
  c9_formatting_generic_total.2.2.2 "transfer_funds" (by decide)

/-- C10: at wrap time only attributes whose names do not start with an
underscore and whose values are callable are bound onto the instrumented
object: every bound operation comes from a non-underscore callable
attribute of the capability (so underscore-prefixed or non-callable
attributes are never exposed, regardless of the tables), and conversely
every non-underscore callable attribute is bound, classified by
`decorate_one`. -/
theorem c10_wrap_surface (api : List (String × Attr)) :
    (∀ (name : String) (w : Wrapped), (name, w) ∈ decorate_methods api →
      startswith_underscore name = false ∧
      ∃ m : MethodImpl, (name, Attr.callable m) ∈ api ∧ w = decorate_one name m) ∧
    (∀ (name : String) (m : MethodImpl), (name, Attr.callable m) ∈ api →
      startswith_underscore name = false →
      (name, decorate_one name m) ∈ decorate_methods api) := by
  constructor
  · intro name w hmem
    unfold decorate_methods at hmem
    rw [List.mem_filterMap] at hmem
    obtain ⟨⟨n, attr⟩, hin, hf⟩ := hmem
    dsimp only at hf
    by_cases hu : startswith_underscore n = true
    · rw [if_pos hu] at hf
      cases hf
    · rw [if_neg hu] at hf
      cases attr with
      | callable mm =>
        simp only [Option.some.injEq, Prod.mk.injEq] at hf
        obtain ⟨hn, hw⟩ := hf
        subst hn
        exact ⟨by simpa using hu, mm, hin, hw.symm⟩
      | value v => cases hf
  · intro name mm hin hu
    unfold decorate_methods
    rw [List.mem_filterMap]
    refine ⟨(name, Attr.callable mm), hin, ?_⟩
    simp [hu]

/-- C10 witness: with an underscore-prefixed attribute and a non-callable
attribute present, the non-underscore callable name is bound. -/
theorem c10_witness :
    ("get_price", decorate_one "get_price" (fun _ _ => Except.ok Value.vnone)) ∈
      decorate_methods
        [("_api_key", Attr.value (.vstr "s3cret")),
         ("get_price", Attr.callable (fun _ _ => Except.ok Value.vnone))] := by
  exact (c10_wrap_surface _).2 "get_price" _
    (List.mem_cons_of_mem _ (List.mem_cons_self _ _)) (by decide)

end FuturesAPIDecorator
